import Mathlib

/-!
Shallow embedding of the billiards aiming tool (the single component file
of the repository): table constants, 2D vector math, ghost-ball and
one-cushion rail computations, and the pointer-drag state machine.
JavaScript numbers are modelled as real numbers; `Math.hypot` is
`Real.sqrt` of the sum of squares and `Math.acos` is `Real.arccos`.
-/

open Classical

namespace Billiards

/-- Model of `type Point = { x: number; y: number }`. -/
@[ext]
structure Point where
  x : ℝ
  y : ℝ

def TABLE_W : ℝ := 1000
def TABLE_H : ℝ := 500
def BALL_R : ℝ := 12

/-- Model of `clamp(val, min, max) = Math.min(Math.max(val, min), max)`. -/
noncomputable def clamp (val lo hi : ℝ) : ℝ := min (max val lo) hi

/-- Model of `clampPointToInner`: keep balls inside the play area, with radius padding. -/
noncomputable def clampPointToInner (p : Point) : Point :=
  ⟨clamp p.x BALL_R (TABLE_W - BALL_R), clamp p.y BALL_R (TABLE_H - BALL_R)⟩

def sub (a b : Point) : Point := ⟨a.x - b.x, a.y - b.y⟩

def add (a b : Point) : Point := ⟨a.x + b.x, a.y + b.y⟩

def mul (a : Point) (k : ℝ) : Point := ⟨a.x * k, a.y * k⟩

/-- Model of `len(v) = Math.hypot(v.x, v.y)`. -/
noncomputable def len (v : Point) : ℝ := Real.sqrt (v.x ^ 2 + v.y ^ 2)

/-- Model of `dist(a, b) = Math.hypot(a.x - b.x, a.y - b.y)`. -/
noncomputable def dist (a b : Point) : ℝ := len (sub a b)

/-- Model of `norm(v)`: divide by the length, the divisor being 1 when the
length is 0 (the JavaScript `const l = len(v) || 1` guard). -/
noncomputable def norm (v : Point) : Point :=
  let l := if len v = 0 then 1 else len v
  ⟨v.x / l, v.y / l⟩

def dot (a b : Point) : ℝ := a.x * b.x + a.y * b.y

/-- Model of `angleBetween(a, b) = Math.acos(clamp(dot(norm a, norm b), -1, 1))`. -/
noncomputable def angleBetween (a b : Point) : ℝ :=
  Real.arccos (clamp (dot (norm a) (norm b)) (-1) 1)

/-- Model of `reflect(v, n)`: with `nn = norm(n)` and `k = 2 * dot(v, nn)`,
return `sub(v, mul(nn, k))`. -/
noncomputable def reflect (v n : Point) : Point :=
  sub v (mul (norm n) (2 * dot v (norm n)))

/-- Model of `ghostBallForPocket(object, pocket)`:
`add(object, mul(norm(sub(object, pocket)), 2 * BALL_R))`. -/
noncomputable def ghostBallForPocket (object pocket : Point) : Point :=
  add object (mul (norm (sub object pocket)) (2 * BALL_R))

/-- The four rail edges (the `RailEdge` union type). -/
inductive RailEdge where
  | top
  | bottom
  | left
  | right
deriving DecidableEq

/-- Return type of `clampToRail`: the clamped point and the chosen edge. -/
structure RailHit where
  point : Point
  edge : RailEdge

/-- Model of `clampToRail(p)`: nearest-edge selection by the signed offsets
`dTop = p.y`, `dBottom = H - p.y`, `dLeft = p.x`, `dRight = W - p.x`, with
the first-match check order top, bottom, left, right. -/
noncomputable def clampToRail (p : Point) : RailHit :=
  let dTop := p.y
  let dBottom := TABLE_H - p.y
  let dLeft := p.x
  let dRight := TABLE_W - p.x
  let m := min (min (min dTop dBottom) dLeft) dRight
  if m = dTop then ⟨⟨clamp p.x 0 TABLE_W, 0⟩, .top⟩
  else if m = dBottom then ⟨⟨clamp p.x 0 TABLE_W, TABLE_H⟩, .bottom⟩
  else if m = dLeft then ⟨⟨0, clamp p.y 0 TABLE_H⟩, .left⟩
  else ⟨⟨TABLE_W, clamp p.y 0 TABLE_H⟩, .right⟩

/-- Model of `edgeNormal(edge)`. -/
def edgeNormal : RailEdge → Point
  | .top => ⟨0, 1⟩
  | .bottom => ⟨0, -1⟩
  | .left => ⟨1, 0⟩
  | .right => ⟨-1, 0⟩

/-- Model of `isInsideCircle(p, c, r) = dist(p, c) <= r`. -/
def isInsideCircle (p c : Point) (r : ℝ) : Prop := dist p c ≤ r

/-- Model of a pocket record `{ id, x, y }`. -/
structure Pocket where
  id : String
  x : ℝ
  y : ℝ

/-- Position of a pocket as a `Point`. -/
def Pocket.pos (pk : Pocket) : Point := ⟨pk.x, pk.y⟩

/-- The fixed pocket list: corners and rail midpoints, in source order. -/
noncomputable def pockets : List Pocket :=
  [⟨"TL", 0, 0⟩, ⟨"TM", TABLE_W / 2, 0⟩, ⟨"TR", TABLE_W, 0⟩,
   ⟨"BL", 0, TABLE_H⟩, ⟨"BM", TABLE_W / 2, TABLE_H⟩, ⟨"BR", TABLE_W, TABLE_H⟩]

/-- Derived geometry of the pocket mode (the `pocketData` memo): the ghost
ball and the cut angle in degrees. -/
structure PocketData where
  ghost : Point
  cutAngleDeg : ℝ

/-- Model of the `pocketData` memo body. -/
noncomputable def pocketData (cue obj pocket : Point) : PocketData :=
  { ghost := ghostBallForPocket obj pocket
    cutAngleDeg := angleBetween (sub pocket obj) (sub cue obj) * 180 / Real.pi }

/-- Derived geometry of the rail mode (the `railData` memo). -/
structure RailData where
  rp : Point
  edge : RailEdge
  incoming : Point
  normal : Point
  reflected : Point
  toObj : Point
  mismatchDeg : ℝ

/-- Model of the `railData` memo body. -/
noncomputable def railData (cue obj railPoint : Point) : RailData :=
  let h := clampToRail railPoint
  let incoming := sub h.point cue
  let normal := edgeNormal h.edge
  let reflected := reflect incoming normal
  let toObj := sub obj h.point
  let mismatchRad := angleBetween reflected toObj
  { rp := h.point, edge := h.edge, incoming := incoming, normal := normal,
    reflected := reflected, toObj := toObj,
    mismatchDeg := mismatchRad * 180 / Real.pi }

/-- Model of the `DragTarget` union type. -/
inductive DragTarget where
  | cue
  | obj
  | rail
  | none
  | pocket (id : String)
deriving DecidableEq

/-- The mutable entity state of the component: ball positions, selected
pocket, raw rail-marker position, and the current drag target. -/
structure AppState where
  cue : Point
  obj : Point
  selectedPocketId : String
  railPoint : Point
  target : DragTarget

/-- Model of `HIT_SCALE = isCoarse ? 2.0 : 1.4`. -/
noncomputable def HIT_SCALE (isCoarse : Bool) : ℝ := if isCoarse then 2.0 else 1.4

/-- Model of `RAIL_HIT_HALF = isCoarse ? 22 : 14`. -/
noncomputable def RAIL_HIT_HALF (isCoarse : Bool) : ℝ := if isCoarse then 22 else 14

/-- Model of the `for (const pk of pockets)` loop with early return: the
first pocket of the list whose hit circle of radius `r` contains `p`. -/
noncomputable def findPocketHit (p : Point) (r : ℝ) : List Pocket → Option Pocket
  | [] => Option.none
  | pk :: rest => if isInsideCircle p pk.pos r then some pk else findPocketHit p r rest

/-- Model of `onPointerDown`: hit-test pockets first, then the cue ball,
the object ball, the rail handle square, else no target. -/
noncomputable def onPointerDown (isCoarse : Bool) (p : Point) (s : AppState) : AppState :=
  match findPocketHit p (20 * (if isCoarse then 1.3 else 1)) pockets with
  | some pk => { s with target := .pocket pk.id, selectedPocketId := pk.id }
  | Option.none =>
      if isInsideCircle p s.cue (BALL_R * HIT_SCALE isCoarse) then { s with target := .cue }
      else if isInsideCircle p s.obj (BALL_R * HIT_SCALE isCoarse) then { s with target := .obj }
      else
        let rp := (clampToRail s.railPoint).point
        if |p.x - rp.x| ≤ RAIL_HIT_HALF isCoarse ∧ |p.y - rp.y| ≤ RAIL_HIT_HALF isCoarse then
          { s with target := .rail }
        else { s with target := .none }

/-- Model of `onPointerMove`: update the dragged entity, or re-select a
pocket while dragging a pocket target. -/
noncomputable def onPointerMove (isCoarse : Bool) (p : Point) (s : AppState) : AppState :=
  match s.target with
  | .none => s
  | .cue => { s with cue := clampPointToInner p }
  | .obj => { s with obj := clampPointToInner p }
  | .rail => { s with railPoint := ⟨clamp p.x 0 TABLE_W, clamp p.y 0 TABLE_H⟩ }
  | .pocket _ =>
      match findPocketHit p (25 * (if isCoarse then 1.3 else 1)) pockets with
      | some pk => { s with selectedPocketId := pk.id }
      | Option.none => s

/-- Model of `onPointerUp`: reset the drag target unconditionally. -/
def onPointerUp (s : AppState) : AppState := { s with target := .none }

/-- The initial entity state from the `useState` initializers. -/
noncomputable def initState : AppState :=
  { cue := ⟨TABLE_W * 0.25, TABLE_H * 0.7⟩
    obj := ⟨TABLE_W * 0.6, TABLE_H * 0.4⟩
    selectedPocketId := "BR"
    railPoint := ⟨TABLE_W * 0.7, 10⟩
    target := .none }

/-- Model of the reset button handler: restore the three default positions. -/
noncomputable def resetState (s : AppState) : AppState :=
  { s with cue := ⟨TABLE_W * 0.25, TABLE_H * 0.7⟩
           obj := ⟨TABLE_W * 0.6, TABLE_H * 0.4⟩
           railPoint := ⟨TABLE_W * 0.7, 10⟩ }

/-- The events that mutate entity state. -/
inductive Event where
  | down (p : Point)
  | move (p : Point)
  | up
  | reset

/-- One step of the interaction state machine. -/
noncomputable def step (isCoarse : Bool) (s : AppState) : Event → AppState
  | .down p => onPointerDown isCoarse p s
  | .move p => onPointerMove isCoarse p s
  | .up => onPointerUp s
  | .reset => resetState s

/-! Basic lemmas about the vector operations. -/

theorem len_nonneg (v : Point) : 0 ≤ len v := Real.sqrt_nonneg _

theorem len_zero_vec : len (⟨0, 0⟩ : Point) = 0 := by
  unfold len
  norm_num

theorem len_eq_zero_iff (v : Point) : len v = 0 ↔ v = ⟨0, 0⟩ := by
  unfold len
  rw [Real.sqrt_eq_zero (by positivity),
    add_eq_zero_iff_of_nonneg (sq_nonneg _) (sq_nonneg _)]
  constructor
  · rintro ⟨hx, hy⟩
    apply Point.ext
    · exact (pow_eq_zero_iff (two_ne_zero)).mp hx
    · exact (pow_eq_zero_iff (two_ne_zero)).mp hy
  · rintro rfl
    norm_num

theorem len_mul (v : Point) (k : ℝ) : len (mul v k) = |k| * len v := by
  unfold len mul
  rw [show (v.x * k) ^ 2 + (v.y * k) ^ 2 = k ^ 2 * (v.x ^ 2 + v.y ^ 2) by ring,
    Real.sqrt_mul (sq_nonneg k), Real.sqrt_sq_eq_abs]

theorem norm_zero_vec : norm ⟨0, 0⟩ = ⟨0, 0⟩ := by
  unfold norm
  apply Point.ext <;> simp

theorem norm_of_ne_zero {v : Point} (h : v ≠ ⟨0, 0⟩) : norm v = mul v (len v)⁻¹ := by
  have hl : len v ≠ 0 := fun h0 => h ((len_eq_zero_iff v).mp h0)
  simp only [norm, mul, if_neg hl]
  apply Point.ext <;> simp [div_eq_mul_inv]

theorem len_norm {v : Point} (h : v ≠ ⟨0, 0⟩) : len (norm v) = 1 := by
  have hl : len v ≠ 0 := fun h0 => h ((len_eq_zero_iff v).mp h0)
  have hpos : 0 < len v := lt_of_le_of_ne (len_nonneg v) (Ne.symm hl)
  rw [norm_of_ne_zero h, len_mul, abs_of_pos (inv_pos.mpr hpos), inv_mul_cancel₀ hl]

/-- C5 counterexample: the JavaScript guard makes `norm` of the zero vector
the zero vector itself, whose length is 0, not a unit vector of length 1. -/
theorem C5_counterexample : norm ⟨0, 0⟩ = ⟨0, 0⟩ ∧ len (norm ⟨0, 0⟩) ≠ 1 := by
  refine ⟨norm_zero_vec, ?_⟩
  rw [norm_zero_vec, len_zero_vec]
  norm_num

/-- C5 (amended): normalize applied to a zero-length vector returns the
vector unchanged, i.e. the zero vector — a fixed, well-defined result with
no error and no division by zero (the guard divides by 1), though its
length is 0, not 1. -/
theorem C5_norm_zero (v : Point) (h : len v = 0) : norm v = v := by
  simp only [norm, if_pos h]
  apply Point.ext <;> simp

/-- C5 witness: the amended statement evaluated at the zero vector. -/
theorem C5_witness : len (⟨0, 0⟩ : Point) = 0 ∧ norm ⟨0, 0⟩ = ⟨0, 0⟩ :=
  ⟨len_zero_vec, C5_norm_zero ⟨0, 0⟩ len_zero_vec⟩

theorem norm_unit_y : norm ⟨0, 1⟩ = ⟨0, 1⟩ := by
  have h1 : len (⟨0, 1⟩ : Point) = 1 := by
    unfold len
    norm_num
  simp only [norm, h1]
  apply Point.ext <;> norm_num

/-- C8: reflect(v, n) equals the spec formula v − 2·dot(v, normalize n)·normalize n
for every v and nonzero n; in particular for the top edge, whose edgeNormal
is (0,1), the incoming vector (1,−1) reflects to exactly (1,1). -/
theorem C8_reflect (v n : Point) (h : n ≠ ⟨0, 0⟩) :
    reflect v n = sub v (mul (norm n) (2 * dot v (norm n))) ∧
    reflect ⟨1, -1⟩ (edgeNormal .top) = ⟨1, 1⟩ := by
  refine ⟨rfl, ?_⟩
  show reflect ⟨1, -1⟩ ⟨0, 1⟩ = ⟨1, 1⟩
  unfold reflect
  rw [norm_unit_y]
  unfold sub mul dot
  apply Point.ext <;> norm_num

/-- C8 witness: the theorem applied at v = (1,−1), n = (0,1). -/
theorem C8_witness :
    (⟨0, 1⟩ : Point) ≠ ⟨0, 0⟩ ∧
    (reflect ⟨1, -1⟩ ⟨0, 1⟩
        = sub ⟨1, -1⟩ (mul (norm ⟨0, 1⟩) (2 * dot ⟨1, -1⟩ (norm ⟨0, 1⟩))) ∧
      reflect ⟨1, -1⟩ (edgeNormal .top) = ⟨1, 1⟩) := by
  have h : (⟨0, 1⟩ : Point) ≠ ⟨0, 0⟩ := by
    intro hc
    have := congrArg Point.y hc
    norm_num at this
  exact ⟨h, C8_reflect ⟨1, -1⟩ ⟨0, 1⟩ h⟩

/-! Angle lemmas for degenerate (zero-vector) arguments. -/

theorem sub_self_vec (p : Point) : sub p p = ⟨0, 0⟩ := by
  unfold sub
  apply Point.ext <;> simp

theorem clamp_zero : clamp 0 (-1) 1 = 0 := by
  unfold clamp
  rw [max_eq_left (by norm_num), min_eq_left (by norm_num)]

theorem angleBetween_zero_left (v : Point) : angleBetween ⟨0, 0⟩ v = Real.pi / 2 := by
  unfold angleBetween
  rw [norm_zero_vec, show dot ⟨0, 0⟩ (norm v) = 0 by unfold dot; norm_num,
    clamp_zero, Real.arccos_zero]

theorem angleBetween_zero_right (v : Point) : angleBetween v ⟨0, 0⟩ = Real.pi / 2 := by
  unfold angleBetween
  rw [norm_zero_vec, show dot (norm v) ⟨0, 0⟩ = 0 by unfold dot; norm_num,
    clamp_zero, Real.arccos_zero]

theorem half_pi_to_deg : Real.pi / 2 * 180 / Real.pi = 90 := by
  field_simp
  ring

/-- C10: angleBetween with a zero-vector argument is π/2 (the clamped dot
product is 0 and acos 0 = π/2); hence the cut angle reads 90° when the cue
ball coincides with the object ball or the selected pocket coincides with
the object ball, and the rail mismatch angle reads 90° when the object ball
lies exactly on the clamped rail point. -/
theorem C10_degenerate_angles :
    (∀ v : Point, angleBetween ⟨0, 0⟩ v = Real.pi / 2) ∧
    (∀ obj pocket : Point, (pocketData obj obj pocket).cutAngleDeg = 90) ∧
    (∀ cue obj : Point, (pocketData cue obj obj).cutAngleDeg = 90) ∧
    (∀ cue obj marker : Point, (clampToRail marker).point = obj →
      (railData cue obj marker).mismatchDeg = 90) := by
  refine ⟨angleBetween_zero_left, ?_, ?_, ?_⟩
  · intro obj pocket
    show angleBetween (sub pocket obj) (sub obj obj) * 180 / Real.pi = 90
    rw [sub_self_vec, angleBetween_zero_right, half_pi_to_deg]
  · intro cue obj
    show angleBetween (sub obj obj) (sub cue obj) * 180 / Real.pi = 90
    rw [sub_self_vec, angleBetween_zero_left, half_pi_to_deg]
  · intro cue obj marker h
    show angleBetween _ (sub obj (clampToRail marker).point) * 180 / Real.pi = 90
    rw [h, sub_self_vec, angleBetween_zero_right, half_pi_to_deg]

/-- C10 witness: for the rail marker (700,10), which clamps to (700,0) on
the top edge, placing the object ball at (700,0) makes the reported
mismatch angle exactly 90°. -/
theorem C10_witness :
    (clampToRail ⟨700, 10⟩).point = ⟨700, 0⟩ ∧
    (railData ⟨0, 0⟩ ⟨700, 0⟩ ⟨700, 10⟩).mismatchDeg = 90 := by
  have h : (clampToRail ⟨700, 10⟩).point = ⟨700, 0⟩ := by
    unfold clampToRail clamp TABLE_W TABLE_H
    norm_num [min_def, max_def]
  exact ⟨h, C10_degenerate_angles.2.2.2 ⟨0, 0⟩ ⟨700, 0⟩ ⟨700, 10⟩ h⟩

/-- C2: the one-cushion computation first clamps the marker to its nearest
rail edge giving (railPoint, edge), then incoming = railPoint − cue,
normal = edgeNormal edge, reflected = reflect(incoming, normal),
toObject = object − railPoint, and the mismatch angle is
angleBetween(reflected, toObject), reported in degrees. -/
theorem C2_rail_data (cue obj marker : Point) :
    (railData cue obj marker).rp = (clampToRail marker).point ∧
    (railData cue obj marker).edge = (clampToRail marker).edge ∧
    (railData cue obj marker).incoming = sub (clampToRail marker).point cue ∧
    (railData cue obj marker).normal = edgeNormal (clampToRail marker).edge ∧
    (railData cue obj marker).reflected
        = reflect (sub (clampToRail marker).point cue)
            (edgeNormal (clampToRail marker).edge) ∧
    (railData cue obj marker).toObj = sub obj (clampToRail marker).point ∧
    (railData cue obj marker).mismatchDeg
        = angleBetween
            (reflect (sub (clampToRail marker).point cue)
              (edgeNormal (clampToRail marker).edge))
            (sub obj (clampToRail marker).point) * 180 / Real.pi :=
  ⟨rfl, rfl, rfl, rfl, rfl, rfl, rfl⟩

/-- C9: reset restores the cue ball, object ball and rail marker to the
initial fixed defaults — cue (250,350), object (600,200), rail marker
(700,10) — and leaves the selected pocket unchanged. -/
theorem C9_reset (s : AppState) :
    (resetState s).cue = initState.cue ∧
    (resetState s).obj = initState.obj ∧
    (resetState s).railPoint = initState.railPoint ∧
    (resetState s).selectedPocketId = s.selectedPocketId ∧
    (resetState s).target = s.target ∧
    initState.cue = ⟨250, 350⟩ ∧ initState.obj = ⟨600, 200⟩ ∧
    initState.railPoint = ⟨700, 10⟩ := by
  refine ⟨rfl, rfl, rfl, rfl, rfl, ?_, ?_, ?_⟩ <;>
    (apply Point.ext <;> norm_num [initState, TABLE_W, TABLE_H])

/-- C7: pointer-up clears the drag target unconditionally, and thereafter
(before the next pointer-down) a pointer-move — indeed any sequence of
pointer-moves — leaves the whole state, in particular the cue, object and
rail-marker positions and the selected pocket, unchanged. -/
theorem C7_pointer_up (isCoarse : Bool) (s : AppState) (p : Point) (ps : List Point) :
    (onPointerUp s).target = DragTarget.none ∧
    onPointerMove isCoarse p (onPointerUp s) = onPointerUp s ∧
    (ps.map Event.move).foldl (step isCoarse) (onPointerUp s) = onPointerUp s := by
  refine ⟨rfl, rfl, ?_⟩
  induction ps with
  | nil => rfl
  | cons q rest ih => simpa using ih

/-! Ghost-ball geometry. -/

theorem sub_ne_zero_of_ne {a b : Point} (h : a ≠ b) : sub a b ≠ ⟨0, 0⟩ := by
  intro hc
  simp only [sub, Point.mk.injEq] at hc
  apply h
  apply Point.ext
  · linarith [hc.1]
  · linarith [hc.2]

/-- C1: for object ≠ pocket the ghost ball equals
object + normalize(object − pocket) × (2·r): it lies at distance exactly 2r
beyond the object on the ray from the pocket through the object, hence
farther from the pocket than the object is. -/
theorem C1_ghost_ball (object pocket : Point) (h : object ≠ pocket) :
    ghostBallForPocket object pocket
        = add object (mul (norm (sub object pocket)) (2 * BALL_R)) ∧
    dist (ghostBallForPocket object pocket) object = 2 * BALL_R ∧
    dist pocket (ghostBallForPocket object pocket)
        = dist pocket object + 2 * BALL_R ∧
    dist pocket object < dist pocket (ghostBallForPocket object pocket) := by
  have hv : sub object pocket ≠ ⟨0, 0⟩ := sub_ne_zero_of_ne h
  have hl : len (sub object pocket) ≠ 0 := fun h0 => hv ((len_eq_zero_iff _).mp h0)
  have hpos : 0 < len (sub object pocket) :=
    lt_of_le_of_ne (len_nonneg _) (Ne.symm hl)
  have hnorm := norm_of_ne_zero hv
  have h2 : dist (ghostBallForPocket object pocket) object = 2 * BALL_R := by
    have hsub1 : sub (ghostBallForPocket object pocket) object
        = mul (norm (sub object pocket)) (2 * BALL_R) := by
      apply Point.ext <;> simp [ghostBallForPocket, sub, add, mul]
    unfold dist
    rw [hsub1, len_mul, len_norm hv, abs_of_pos (by norm_num [BALL_R])]
    ring
  have hd : dist pocket object = len (sub object pocket) := by
    have hsub3 : sub pocket object = mul (sub object pocket) (-1) := by
      apply Point.ext <;> simp [sub, mul]
    unfold dist
    rw [hsub3, len_mul]
    norm_num
  have h3 : dist pocket (ghostBallForPocket object pocket)
      = dist pocket object + 2 * BALL_R := by
    have hsub2 : sub pocket (ghostBallForPocket object pocket)
        = mul (sub object pocket) (-(1 + 2 * BALL_R * (len (sub object pocket))⁻¹)) := by
      unfold ghostBallForPocket
      rw [hnorm]
      apply Point.ext <;> simp only [sub, add, mul] <;> ring
    have hcoef : (0:ℝ) < 1 + 2 * BALL_R * (len (sub object pocket))⁻¹ := by
      have hinv : (0:ℝ) < (len (sub object pocket))⁻¹ := inv_pos.mpr hpos
      have hb : (0:ℝ) < BALL_R := by norm_num [BALL_R]
      nlinarith
    unfold dist
    rw [hsub2, len_mul, abs_neg, abs_of_pos hcoef,
      show len (sub pocket object) = len (sub object pocket) from hd]
    field_simp
  exact ⟨rfl, h2, h3, by rw [h3]; norm_num [BALL_R]⟩

/-- C1 witness: the theorem at the object (500,250) and the BR pocket
(1000,500). -/
theorem C1_witness :
    (⟨500, 250⟩ : Point) ≠ ⟨1000, 500⟩ ∧
    (ghostBallForPocket ⟨500, 250⟩ ⟨1000, 500⟩
        = add ⟨500, 250⟩ (mul (norm (sub ⟨500, 250⟩ ⟨1000, 500⟩)) (2 * BALL_R)) ∧
      dist (ghostBallForPocket ⟨500, 250⟩ ⟨1000, 500⟩) ⟨500, 250⟩ = 2 * BALL_R ∧
      dist ⟨1000, 500⟩ (ghostBallForPocket ⟨500, 250⟩ ⟨1000, 500⟩)
          = dist ⟨1000, 500⟩ ⟨500, 250⟩ + 2 * BALL_R ∧
      dist ⟨1000, 500⟩ ⟨500, 250⟩
          < dist ⟨1000, 500⟩ (ghostBallForPocket ⟨500, 250⟩ ⟨1000, 500⟩)) := by
  have h : (⟨500, 250⟩ : Point) ≠ ⟨1000, 500⟩ := by
    intro hc
    have := congrArg Point.x hc
    norm_num at this
  exact ⟨h, C1_ghost_ball ⟨500, 250⟩ ⟨1000, 500⟩ h⟩

/-! Spec-side description of the nearest-rail clamp (from the spec wording:
true point-to-edge distances, minimum edge with first-match tie-break in
the order top, bottom, left, right, projection with the along-edge
coordinate clamped). -/

/-- Distance from a point to one of the four edge lines of the table
(`y = 0`, `y = H`, `x = 0`, `x = W`), as the spec word "distance" reads. -/
noncomputable def edgeDist (p : Point) : RailEdge → ℝ
  | .top => |p.y|
  | .bottom => |TABLE_H - p.y|
  | .left => |p.x|
  | .right => |TABLE_W - p.x|

/-- Projection of a point onto an edge, with the coordinate along the edge
clamped to the table range. -/
noncomputable def projectToEdge (p : Point) : RailEdge → Point
  | .top => ⟨clamp p.x 0 TABLE_W, 0⟩
  | .bottom => ⟨clamp p.x 0 TABLE_W, TABLE_H⟩
  | .left => ⟨0, clamp p.y 0 TABLE_H⟩
  | .right => ⟨TABLE_W, clamp p.y 0 TABLE_H⟩

/-- Spec version of `clampToNearestRail`: select the edge of minimum
distance, ties broken by the fixed check order top, bottom, left, right
(first match wins), and project the point onto it. -/
noncomputable def clampToRailSpec (p : Point) : RailHit :=
  let m := min (min (min (edgeDist p .top) (edgeDist p .bottom)) (edgeDist p .left))
    (edgeDist p .right)
  if m = edgeDist p .top then ⟨projectToEdge p .top, .top⟩
  else if m = edgeDist p .bottom then ⟨projectToEdge p .bottom, .bottom⟩
  else if m = edgeDist p .left then ⟨projectToEdge p .left, .left⟩
  else ⟨projectToEdge p .right, .right⟩

/-- C3 counterexample: at (-10,-5), outside the table, the code compares
the signed offsets (dTop = -5, dLeft = -10) and selects the left edge,
although the top edge line is strictly nearer (distance 5 versus 10), so
the selected edge does not minimise the distances to the four edges. -/
theorem C3_counterexample :
    (clampToRail ⟨-10, -5⟩).edge = RailEdge.left ∧
    edgeDist ⟨-10, -5⟩ RailEdge.top < edgeDist ⟨-10, -5⟩ RailEdge.left ∧
    clampToRail ⟨-10, -5⟩ ≠ clampToRailSpec ⟨-10, -5⟩ := by
  have hcode : clampToRail ⟨-10, -5⟩ = ⟨⟨0, 0⟩, .left⟩ := by
    unfold clampToRail clamp TABLE_W TABLE_H
    norm_num [min_def, max_def]
  have hspec : clampToRailSpec ⟨-10, -5⟩ = ⟨⟨0, 0⟩, .top⟩ := by
    unfold clampToRailSpec edgeDist projectToEdge clamp TABLE_W TABLE_H
    norm_num [min_def, max_def]
  refine ⟨by rw [hcode], ?_, ?_⟩
  · show |(-5:ℝ)| < |(-10:ℝ)|
    norm_num
  · rw [hcode, hspec]
    intro hc
    have := congrArg RailHit.edge hc
    simp at this

/-- C3 (amended): for every point in the bounding box 0 ≤ x ≤ W,
0 ≤ y ≤ H — which holds for every rail-marker position the app ever passes,
since the marker is clamped to that box on each drag — `clampToRail`
computes the four distances to the edges y = 0, y = H, x = 0, x = W,
selects the minimum-distance edge with ties broken in the fixed check order
top, bottom, left, right (first match wins), and returns the point
projected onto that edge with the along-edge coordinate clamped, together
with the identifier of that edge. -/
theorem C3_clamp_to_rail (p : Point) (hx0 : 0 ≤ p.x) (hxW : p.x ≤ TABLE_W)
    (hy0 : 0 ≤ p.y) (hyH : p.y ≤ TABLE_H) :
    clampToRail p = clampToRailSpec p := by
  simp only [clampToRail, clampToRailSpec, projectToEdge, edgeDist,
    abs_of_nonneg hy0, abs_of_nonneg hx0, abs_of_nonneg (sub_nonneg.mpr hyH),
    abs_of_nonneg (sub_nonneg.mpr hxW)]

/-- C3 witness: the amended statement evaluated at the initial rail-marker
position (700,10). -/
theorem C3_witness :
    ((0:ℝ) ≤ (⟨700, 10⟩ : Point).x ∧ (⟨700, 10⟩ : Point).x ≤ TABLE_W ∧
      (0:ℝ) ≤ (⟨700, 10⟩ : Point).y ∧ (⟨700, 10⟩ : Point).y ≤ TABLE_H) ∧
    clampToRail ⟨700, 10⟩ = clampToRailSpec ⟨700, 10⟩ := by
  have h : (0:ℝ) ≤ (⟨700, 10⟩ : Point).x ∧ (⟨700, 10⟩ : Point).x ≤ TABLE_W ∧
      (0:ℝ) ≤ (⟨700, 10⟩ : Point).y ∧ (⟨700, 10⟩ : Point).y ≤ TABLE_H := by
    norm_num [TABLE_W, TABLE_H]
  exact ⟨h, C3_clamp_to_rail ⟨700, 10⟩ h.1 h.2.1 h.2.2.1 h.2.2.2⟩

/-! The ball-position invariant of the interaction state machine. -/

/-- A ball center inside the cushions, padded by the ball radius. -/
def inInner (p : Point) : Prop :=
  BALL_R ≤ p.x ∧ p.x ≤ TABLE_W - BALL_R ∧ BALL_R ≤ p.y ∧ p.y ≤ TABLE_H - BALL_R

theorem clampPointToInner_inInner (p : Point) : inInner (clampPointToInner p) := by
  unfold inInner clampPointToInner clamp TABLE_W TABLE_H BALL_R
  refine ⟨le_min (le_max_right _ _) (by norm_num), min_le_right _ _,
    le_min (le_max_right _ _) (by norm_num), min_le_right _ _⟩

theorem initState_inInner : inInner initState.cue ∧ inInner initState.obj := by
  unfold initState inInner TABLE_W TABLE_H BALL_R
  norm_num

theorem onPointerDown_positions (isCoarse : Bool) (p : Point) (s : AppState) :
    (onPointerDown isCoarse p s).cue = s.cue ∧ (onPointerDown isCoarse p s).obj = s.obj := by
  unfold onPointerDown
  split
  · exact ⟨rfl, rfl⟩
  · dsimp only
    split_ifs <;> exact ⟨rfl, rfl⟩

theorem onPointerMove_preserves (isCoarse : Bool) (p : Point) (s : AppState)
    (h : inInner s.cue ∧ inInner s.obj) :
    inInner (onPointerMove isCoarse p s).cue ∧ inInner (onPointerMove isCoarse p s).obj := by
  unfold onPointerMove
  split
  · exact h
  · exact ⟨clampPointToInner_inInner p, h.2⟩
  · exact ⟨h.1, clampPointToInner_inInner p⟩
  · exact h
  · split
    · exact h
    · exact h

theorem step_preserves (isCoarse : Bool) (s : AppState) (e : Event)
    (h : inInner s.cue ∧ inInner s.obj) :
    inInner (step isCoarse s e).cue ∧ inInner (step isCoarse s e).obj := by
  cases e with
  | down p =>
      have hp := onPointerDown_positions isCoarse p s
      show inInner (onPointerDown isCoarse p s).cue ∧ inInner (onPointerDown isCoarse p s).obj
      rw [hp.1, hp.2]
      exact h
  | move p => exact onPointerMove_preserves isCoarse p s h
  | up => exact h
  | reset =>
      show inInner (resetState s).cue ∧ inInner (resetState s).obj
      unfold resetState inInner TABLE_W TABLE_H BALL_R
      norm_num

/-- C4: in every state reachable from the initial state by any sequence of
pointer events and resets, the cue-ball and object-ball positions satisfy
r ≤ x ≤ W − r and r ≤ y ≤ H − r with W = 1000, H = 500, r = 12. -/
theorem C4_position_invariant (isCoarse : Bool) (events : List Event) :
    (12 ≤ ((events.foldl (step isCoarse) initState).cue).x ∧
      ((events.foldl (step isCoarse) initState).cue).x ≤ 1000 - 12 ∧
      12 ≤ ((events.foldl (step isCoarse) initState).cue).y ∧
      ((events.foldl (step isCoarse) initState).cue).y ≤ 500 - 12) ∧
    (12 ≤ ((events.foldl (step isCoarse) initState).obj).x ∧
      ((events.foldl (step isCoarse) initState).obj).x ≤ 1000 - 12 ∧
      12 ≤ ((events.foldl (step isCoarse) initState).obj).y ∧
      ((events.foldl (step isCoarse) initState).obj).y ≤ 500 - 12) := by
  have main : ∀ (l : List Event) (s : AppState), inInner s.cue ∧ inInner s.obj →
      inInner ((l.foldl (step isCoarse) s).cue) ∧ inInner ((l.foldl (step isCoarse) s).obj) := by
    intro l
    induction l with
    | nil => exact fun s h => h
    | cons e rest ih =>
        intro s h
        exact ih (step isCoarse s e) (step_preserves isCoarse s e h)
  have hfin := main events initState initState_inInner
  unfold inInner TABLE_W TABLE_H BALL_R at hfin
  norm_num at hfin ⊢
  tauto

/-! Spec-side description of the pointer-down hit-test priority. -/

/-- Spec version of the pointer-down dispatch: hit-test the six pockets in
fixed list order (first containing hit circle wins, selecting that pocket),
else the cue ball circle, else the object ball circle, else the fixed-size
square centered on the clamped rail-marker position, else no target. -/
noncomputable def onPointerDownSpec (isCoarse : Bool) (p : Point) (s : AppState) : AppState :=
  match pockets.find? (fun pk => decide (dist p pk.pos ≤ 20 * (if isCoarse then 1.3 else 1))) with
  | some pk => { s with target := .pocket pk.id, selectedPocketId := pk.id }
  | Option.none =>
      if dist p s.cue ≤ BALL_R * HIT_SCALE isCoarse then { s with target := .cue }
      else if dist p s.obj ≤ BALL_R * HIT_SCALE isCoarse then { s with target := .obj }
      else if |p.x - (clampToRail s.railPoint).point.x| ≤ RAIL_HIT_HALF isCoarse ∧
          |p.y - (clampToRail s.railPoint).point.y| ≤ RAIL_HIT_HALF isCoarse then
        { s with target := .rail }
      else { s with target := .none }

theorem findPocketHit_eq_find (p : Point) (r : ℝ) (l : List Pocket) :
    findPocketHit p r l = l.find? fun pk => decide (dist p pk.pos ≤ r) := by
  induction l with
  | nil => rfl
  | cons pk rest ih =>
      simp only [findPocketHit]
      by_cases h : isInsideCircle p pk.pos r
      · rw [if_pos h, List.find?_cons_of_pos _ (by simpa [isInsideCircle] using h)]
      · rw [if_neg h, List.find?_cons_of_neg _ (by simpa [isInsideCircle] using h), ih]

/-- C6: pointer-down resolves the drag target by the priority order of the
spec — the six pockets in fixed list order (the first whose enlarged hit
circle contains the point wins and also becomes the selected pocket), then
the cue ball circle with the pointer-type scale, then the object ball
circle with the same scale, then the fixed-size square centered on the
clamped rail-marker position, else no target. -/
theorem C6_pointer_down (isCoarse : Bool) (p : Point) (s : AppState) :
    onPointerDown isCoarse p s = onPointerDownSpec isCoarse p s := by
  unfold onPointerDown onPointerDownSpec
  rw [findPocketHit_eq_find]
  rfl

end Billiards
